import Mathlib

/-!
Verification of the earthquake-catalog pipeline (`streamlit.py`).

The repository's only non-presentational logic is:
* `load_earthquake_data` — fetches a whitespace-delimited text catalog and
  parses it with pandas into typed rows (the network fetch is abstracted:
  the embedding is parameterized by the response body text);
* `get_color` — maps a timestamp inside a [min, max] window to a hex color;
* the date/magnitude mask building `filtered_df`.

Numeric fields are modelled as `ℚ` (the feed carries short decimal
fractions, all exactly representable), timestamps for the color mapper as
`ℚ` epoch seconds (the value of `pd.Timestamp(...).timestamp()`), and
fallible steps return `Except PyErr`.
-/

namespace Earthquakes

attribute [local semireducible] Rat.mul Rat.add Rat.sub Rat.inv Rat.ofScientific

/-- Exceptions the Python pipeline can raise: `ValueError` (pandas frame
construction with a row longer than the header, or a failed numeric /
datetime conversion), `KeyError` (column lookup or `df.drop` on a missing
label), `AttributeError` (`.str` on a duplicated-label selection, which
yields a `DataFrame` rather than a `Series`). -/
inductive PyErr
  | valueError
  | keyError
  | attributeError
deriving DecidableEq, Repr

/-- Decidable equality of fallible results, so that concrete runs of the
pipeline can be checked by `decide`. -/
instance {ε α : Type} [DecidableEq ε] [DecidableEq α] : DecidableEq (Except ε α) := fun x y =>
  match x, y with
  | .error e, .error f =>
    if h : e = f then .isTrue (by rw [h]) else .isFalse (fun hc => h (Except.error.inj hc))
  | .error _, .ok _ => .isFalse (fun hc => Except.noConfusion hc)
  | .ok _, .error _ => .isFalse (fun hc => Except.noConfusion hc)
  | .ok a, .ok b =>
    if h : a = b then .isTrue (by rw [h]) else .isFalse (fun hc => h (Except.ok.inj hc))

/-- A token: one whitespace-delimited word of the feed, as a character list. -/
abbrev Tok := List Char

/-- Character list of a string literal (used to spell concrete tokens). -/
def tk (s : String) : Tok := s.data

/-- Python `str.split(sep)` semantics on a character list: split at every
separator character, keeping empty pieces; the result is always nonempty. -/
def splitP (p : Char → Bool) : List Char → List (List Char)
  | [] => [[]]
  | c :: cs =>
    let r := splitP p cs
    if p c then [] :: r
    else (c :: r.headD []) :: r.tail

/-- The characters Python `str.split()` (no argument) treats as whitespace. -/
def isPySpace (c : Char) : Bool :=
  c = ' ' || c = '\t' || c = '\n' || c = '\r' || c = '\x0b' || c = '\x0c'

/-- Python `line.split()` (line 21 of the source): split on runs of
whitespace, discarding empty pieces. -/
def pyTokens (l : List Char) : List (List Char) :=
  (splitP isPySpace l).filter (fun t => !t.isEmpty)

/-- Join pieces with a single separator character (used only to build the
concrete response bodies the theorems feed to the parser). -/
def joinSep (sep : Char) : List (List Char) → List Char
  | [] => []
  | [x] => x
  | x :: y :: t => x ++ sep :: joinSep sep (y :: t)

/-- A response body whose lines are the given token rows joined by single
spaces, each line terminated by a newline (the final empty piece realizes
the trailing newline of the feed). -/
def mkBody (lineToks : List (List Tok)) : String :=
  String.mk (joinSep '\n' (lineToks.map (joinSep ' ') ++ [[]]))

/-- A response body as in `mkBody` but with no newline after the last line. -/
def mkBodyNoNL (lineToks : List (List Tok)) : String :=
  String.mk (joinSep '\n' (lineToks.map (joinSep ' ')))

/-- A well-formed feed token: nonempty and free of whitespace characters
(so that joining by single spaces/newlines and re-splitting is lossless). -/
def tokOK (t : Tok) : Bool := !t.isEmpty && t.all (fun c => !isPySpace c)

/-- Pad a row to the frame's inferred width with missing cells: the
pandas `DataFrame` constructor (line 25 of the source) pads ragged rows
to the widest candidate row; a missing cell is pandas `NaN`/`None`. -/
def padRow (n : ℕ) (r : List Tok) : List (Option Tok) :=
  r.map some ++ List.replicate (n - r.length) none

/-- The width pandas infers for a list-of-lists payload: the maximum
candidate-row length (`0` when there are no rows). -/
def dataWidth (data : List (List Tok)) : ℕ :=
  data.foldr (fun r m => max r.length m) 0

/-- First index of a column name in the header, if present. -/
def idxOfTok (name : Tok) : List Tok → Option ℕ
  | [] => none
  | t :: ts => if t = name then some 0 else (idxOfTok name ts).map (· + 1)

/-- Number of occurrences of a column name in the header. -/
def countTok (name : Tok) (l : List Tok) : ℕ :=
  (l.filter (fun t => decide (t = name))).length

/-- Column lookup `df[name]`: `KeyError` when the label is absent; when the
label is duplicated the selection is a `DataFrame` and the subsequent
`.str`/... access raises `AttributeError`; otherwise the column index. -/
def colIdx (header : List Tok) (name : Tok) : Except PyErr ℕ :=
  match idxOfTok name header with
  | none => .error .keyError
  | some i => if countTok name header > 1 then .error .attributeError else .ok i

/-- Value of a decimal digit character. -/
def digitVal (c : Char) : ℕ := c.toNat - '0'.toNat

/-- Natural number denoted by a digit string. -/
def digitsToNat (l : List Char) : ℕ := l.foldl (fun a c => 10 * a + digitVal c) 0

/-- Parse an unsigned decimal literal `digits[.digits]` with at least one
digit in total, the shape the feed's numeric fields take after the
comma-to-dot normalization (a subset of Python's `float` grammar; tokens
outside this shape are treated as conversion failures). -/
def parseUFloat (s : List Char) : Option ℚ :=
  let intPart := s.takeWhile (·.isDigit)
  let rest := s.dropWhile (·.isDigit)
  match rest with
  | [] => if intPart.isEmpty then none else some (digitsToNat intPart : ℚ)
  | '.' :: frac =>
    if frac.all (·.isDigit) && !(intPart.isEmpty && frac.isEmpty) then
      some (mkRat (digitsToNat intPart * Nat.pow 10 frac.length + digitsToNat frac)
        (Nat.pow 10 frac.length))
    else none
  | _ => none

/-- Parse a signed decimal literal, as Python `float()` does on the feed's
numeric tokens. -/
def parseFloat (s : List Char) : Option ℚ :=
  match s with
  | '-' :: t => (parseUFloat t).map (fun q => -q)
  | '+' :: t => parseUFloat t
  | t => parseUFloat t

/-- The `.str.replace(',', '.')` normalization (lines 30-33 of the source):
every comma becomes a dot. -/
def replaceComma (s : Tok) : Tok := s.map (fun c => if c = ',' then '.' else c)

/-- One cell of a float column under
`.str.replace(',', '.').astype(float)`: a missing cell stays `NaN`
(modelled `none`), a token is normalized then converted, and an
unconvertible token raises `ValueError`. -/
def floatCell (c : Option Tok) : Except PyErr (Option ℚ) :=
  match c with
  | none => .ok none
  | some s =>
    match parseFloat (replaceComma s) with
    | some q => .ok (some q)
    | none => .error .valueError

/-- Parse a token as an unsigned decimal integer. -/
def parseNat (s : Tok) : Option ℕ :=
  if !s.isEmpty && s.all (·.isDigit) then some (digitsToNat s) else none

/-- A calendar timestamp to minute precision, the payload of the
`Datetime` column (`pd.to_datetime` of `"Y-M-D H:M"` has zero seconds). -/
structure DT where
  year : ℕ
  month : ℕ
  day : ℕ
  hour : ℕ
  minute : ℕ
deriving DecidableEq, Repr

/-- Gregorian leap-year rule. -/
def isLeap (y : ℕ) : Bool := (y % 4 = 0 && y % 100 ≠ 0) || y % 400 = 0

/-- Number of days in a month of a given year. -/
def daysInMonth (y m : ℕ) : ℕ :=
  if m = 2 then (if isLeap y then 29 else 28)
  else if m = 4 ∨ m = 6 ∨ m = 9 ∨ m = 11 then 30 else 31

/-- One cell of the `Datetime` column (lines 36-40 of the source):
`astype(str)` renders a missing cell as the string `"None"`, which
`pd.to_datetime` rejects; otherwise the five tokens are joined as
`"Y-M-D H:M"` and parsed. The accepted shape is modelled conservatively:
a four-digit year inside the `pd.Timestamp` nanosecond range and one- or
two-digit month/day/hour/minute fields denoting a valid calendar time. -/
def dtCell (y mo dy hr mn : Option Tok) : Except PyErr DT :=
  match y, mo, dy, hr, mn with
  | some ys, some mos, some dys, some hrs, some mns =>
    match parseNat ys, parseNat mos, parseNat dys, parseNat hrs, parseNat mns with
    | some Y, some Mo, some Dy, some Hr, some Mn =>
      if ys.length = 4 ∧ mos.length ≤ 2 ∧ dys.length ≤ 2 ∧ hrs.length ≤ 2 ∧ mns.length ≤ 2 ∧
          1678 ≤ Y ∧ Y ≤ 2261 ∧ 1 ≤ Mo ∧ Mo ≤ 12 ∧ 1 ≤ Dy ∧ Dy ≤ daysInMonth Y Mo ∧
          Hr ≤ 23 ∧ Mn ≤ 59 then
        .ok ⟨Y, Mo, Dy, Hr, Mn⟩
      else .error .valueError
    | _, _, _, _, _ => .error .valueError
  | _, _, _, _, _ => .error .valueError

/-- The `+ pd.Timedelta(hours=2)` shift (line 42 of the source), with the
calendar carry `pandas` performs; a two-hour shift carries at most one day. -/
def addTwoHours (d : DT) : DT :=
  if d.hour + 2 ≤ 23 then { d with hour := d.hour + 2 }
  else
    let h := d.hour + 2 - 24
    if d.day + 1 ≤ daysInMonth d.year d.month then { d with hour := h, day := d.day + 1 }
    else if d.month + 1 ≤ 12 then ⟨d.year, d.month + 1, 1, h, d.minute⟩
    else ⟨d.year + 1, 1, 1, h, d.minute⟩

/-- One parsed earthquake row as returned by `load_earthquake_data`:
the four float columns (a `none` is pandas `NaN`, kept by the parse) and
the composite timezone-shifted `Datetime`. -/
structure Record where
  lat : Option ℚ
  long : Option ℚ
  dep : Option ℚ
  mag : Option ℚ
  datetime : DT
deriving DecidableEq, Repr

/-- `mapE f` is the elementwise conversion of a pandas column: the first
failing cell aborts the whole conversion with its error. -/
def mapE (f : α → Except PyErr β) : List α → Except PyErr (List β)
  | [] => .ok []
  | a :: l =>
    match f a, mapE f l with
    | .ok b, .ok bs => .ok (b :: bs)
    | .error e, _ => .error e
    | .ok _, .error e => .error e

/-- Zip the five converted columns back into rows (indices are aligned:
every column came from the same row list). -/
def recordsOf : List (Option ℚ) → List (Option ℚ) → List (Option ℚ) → List (Option ℚ) →
    List DT → List Record
  | la :: las, lo :: los, de :: des, ma :: mas, d :: ds =>
    ⟨la, lo, de, ma, d⟩ :: recordsOf las los des mas ds
  | _, _, _, _, _ => []

/-- The labels `df.drop` removes (line 45 of the source); `drop` raises
`KeyError` when any of them is absent from the frame. -/
def dropCols : List Tok :=
  [tk "RMS", tk "dx", tk "dy", tk "dz", tk "Np", tk "Na", tk "Gap",
   tk "Year", tk "Mo", tk "Dy", tk "Hr", tk "Mn", tk "Sec"]

/-- The pipeline of lines 25-48 of the source, after the text has been
split into the header tokens and the candidate data rows:
frame construction (a row longer than the header raises `ValueError`,
shorter rows are padded with missing cells), the unconditional
`df = df.iloc[:-1]` drop of the last row, the four float-column
conversions, the `Datetime` construction and two-hour shift, and the
final `df.drop` of the unused columns. -/
def parseCols (header : List Tok) (rows : List (List (Option Tok))) : Except PyErr (List Record) :=
  (colIdx header (tk "Lat")).bind fun iLat =>
    (mapE floatCell (rows.map (fun r => r.getD iLat none))).bind fun lats =>
    (colIdx header (tk "Long")).bind fun iLong =>
    (mapE floatCell (rows.map (fun r => r.getD iLong none))).bind fun longs =>
    (colIdx header (tk "Dep")).bind fun iDep =>
    (mapE floatCell (rows.map (fun r => r.getD iDep none))).bind fun deps =>
    (colIdx header (tk "Mag")).bind fun iMag =>
    (mapE floatCell (rows.map (fun r => r.getD iMag none))).bind fun mags =>
    (colIdx header (tk "Year")).bind fun iY =>
    (colIdx header (tk "Mo")).bind fun iMo =>
    (colIdx header (tk "Dy")).bind fun iDy =>
    (colIdx header (tk "Hr")).bind fun iHr =>
    (colIdx header (tk "Mn")).bind fun iMn =>
    (mapE (fun r => dtCell (r.getD iY none) (r.getD iMo none) (r.getD iDy none)
        (r.getD iHr none) (r.getD iMn none)) rows).bind fun dts0 =>
    if dropCols.all (fun c => decide (c ∈ header)) then
      .ok (recordsOf lats longs deps mags (dts0.map addTwoHours))
    else .error .keyError

/-- Frame construction and row bounding: pandas pads ragged candidate
rows to the widest row and then validates the column list against that
width, raising `ValueError` on any mismatch in either direction; an
empty data list bypasses the width check and builds an empty frame with
the given columns. After construction, `df = df.iloc[:-1]` (line 27 of
the source) drops the last candidate row unconditionally before the
column conversions run. -/
def parseBody (header : List Tok) (data : List (List Tok)) : Except PyErr (List Record) :=
  if data ≠ [] ∧ dataWidth data ≠ header.length then .error .valueError
  else parseCols header ((data.map (padRow (dataWidth data))).dropLast)

/-- `load_earthquake_data`, parameterized by the response body (the one
network read the source performs is outside the embedding): split the
text into lines (line 19), tokenize each line (lines 20-22), take the
first line as the header and the rest as data (line 25), and run the
frame pipeline. `splitP` never returns an empty list, so the fallback
branch is unreachable. -/
def load_earthquake_data (text : String) : Except PyErr (List Record) :=
  match (splitP (fun c => decide (c = '\n')) text.data).map pyTokens with
  | [] => .error .valueError
  | header :: data => parseBody header data

/-- The header row of the upstream feed. -/
def stdHeaderToks : List Tok :=
  [tk "Year", tk "Mo", tk "Dy", tk "Hr", tk "Mn", tk "Sec", tk "Lat", tk "Long",
   tk "Dep", tk "Mag", tk "RMS", tk "dx", tk "dy", tk "dz", tk "Np", tk "Na", tk "Gap"]

/-- The latitude cell of a row under the feed's standard header (column 6). -/
def latF (r : List Tok) : Except PyErr (Option ℚ) := floatCell (some (r.getD 6 []))

/-- The longitude cell of a row under the feed's standard header (column 7). -/
def longF (r : List Tok) : Except PyErr (Option ℚ) := floatCell (some (r.getD 7 []))

/-- The depth cell of a row under the feed's standard header (column 8). -/
def depF (r : List Tok) : Except PyErr (Option ℚ) := floatCell (some (r.getD 8 []))

/-- The magnitude cell of a row under the feed's standard header (column 9). -/
def magF (r : List Tok) : Except PyErr (Option ℚ) := floatCell (some (r.getD 9 []))

/-- The pre-shift datetime of a row under the feed's standard header
(columns 0-4; column 5, the seconds field, is not consulted). -/
def dtF (r : List Tok) : Except PyErr DT :=
  dtCell (some (r.getD 0 [])) (some (r.getD 1 [])) (some (r.getD 2 []))
    (some (r.getD 3 [])) (some (r.getD 4 []))

/-- The record a single well-formed standard-header row denotes: each float
field after comma-to-dot normalization, and the row's date/time fields
shifted by two hours (used to state the round-trip property). -/
def specRecord (r : List Tok) : Option Record :=
  match latF r, longF r, depF r, magF r, dtF r with
  | .ok la, .ok lo, .ok de, .ok ma, .ok d => some ⟨la, lo, de, ma, addTwoHours d⟩
  | _, _, _, _, _ => none

/-- Python `max(a, b)` on rationals. -/
def pyMax (a b : ℚ) : ℚ := if a ≤ b then b else a

/-- Python `min(a, b)` on rationals. -/
def pyMin (a b : ℚ) : ℚ := if b ≤ a then b else a

/-- Truncation toward zero: the behavior of Python `int()` on a rational
(`Int.tdiv` is toward-zero division, and a rational's denominator is
positive). -/
def pyInt (q : ℚ) : ℤ := q.num.tdiv q.den

/-- Two lowercase hex digits, as Python `format(n, '02x')` renders a value
in `[0, 255]` (the only values the color channels take). -/
def hex2 (n : ℕ) : String := String.mk [Nat.digitChar (n / 16 % 16), Nat.digitChar (n % 16)]

/-- The normalized position of lines 60-66 of the source: `1` in the
degenerate window, otherwise linear interpolation, clamped to `[0, 1]`. -/
def colorPos (date min_date max_date : ℚ) : ℚ :=
  let position : ℚ :=
    if max_date = min_date then 1 else (date - min_date) / (max_date - min_date)
  pyMax 0 (pyMin 1 position)

/-- The red channel `int(255 * position)` (line 69 of the source). -/
def redChannel (date min_date max_date : ℚ) : ℤ :=
  pyInt (255 * colorPos date min_date max_date)

/-- The blue channel `int(255 * (1 - position))` (line 70 of the source). -/
def blueChannel (date min_date max_date : ℚ) : ℤ :=
  pyInt (255 * (1 - colorPos date min_date max_date))

/-- The color mapper `get_color` (lines 50-73 of the source), on timestamps
as `pd.Timestamp(...).timestamp()` epoch seconds. -/
def get_color (date min_date max_date : ℚ) : String :=
  "#" ++ hex2 (redChannel date min_date max_date).toNat ++ "00"
    ++ hex2 (blueChannel date min_date max_date).toNat

/-- The calendar date of a `Datetime` cell, the value of `.dt.date`. -/
def dateOfDT (d : DT) : ℕ × ℕ × ℕ := (d.year, d.month, d.day)

/-- Inclusive date comparison on (year, month, day) triples. -/
def dateLE (a b : ℕ × ℕ × ℕ) : Bool :=
  decide (a.1 < b.1) || (decide (a.1 = b.1) &&
    (decide (a.2.1 < b.2.1) || (decide (a.2.1 = b.2.1) && decide (a.2.2 ≤ b.2.2))))

/-- Pandas `series >= bound` on a possibly-`NaN` magnitude: `NaN` compares
false. -/
def magGE (x : Option ℚ) (b : ℚ) : Bool :=
  match x with
  | none => false
  | some v => decide (b ≤ v)

/-- Pandas `series <= bound` on a possibly-`NaN` magnitude: `NaN` compares
false. -/
def magLE (x : Option ℚ) (b : ℚ) : Bool :=
  match x with
  | none => false
  | some v => decide (v ≤ b)

/-- The boolean mask of lines 171-176 of the source: inclusive date-range
comparison on `Datetime.dt.date` and inclusive magnitude-range comparison. -/
def rowMask (startD endD : ℕ × ℕ × ℕ) (mlo mhi : ℚ) (r : Record) : Bool :=
  dateLE startD (dateOfDT r.datetime) && dateLE (dateOfDT r.datetime) endD &&
    magGE r.mag mlo && magLE r.mag mhi

/-- `filtered_df = df[mask]` (line 177 of the source): keep the rows the
mask selects. -/
def filtered_df (df : List Record) (startD endD : ℕ × ℕ × ℕ) (mlo mhi : ℚ) : List Record :=
  df.filter (rowMask startD endD mlo mhi)

/-- A well-formed data row of the feed, with comma decimal separators. -/
def exRow : List Tok :=
  [tk "2024", tk "03", tk "01", tk "10", tk "00", tk "00", tk "38,10", tk "23,70",
   tk "10,0", tk "4,5", tk "0", tk "0", tk "0", tk "0", tk "1", tk "1", tk "1"]

/-- The record `exRow` denotes: comma-normalized floats and the two-hour
shifted timestamp 2024-03-01T12:00. -/
def exRec : Record :=
  ⟨some (381 / 10), some (237 / 10), some 10, some (9 / 2), ⟨2024, 3, 1, 12, 0⟩⟩

/-- A data row with 18 tokens, one more than the feed's header has. -/
def longRow : List Tok := List.replicate 18 (tk "1")

/-- A well-formed data row with dot decimal separators and a nonzero
seconds field. -/
def c4Row : List Tok :=
  [tk "2024", tk "03", tk "01", tk "10", tk "00", tk "37", tk "38.10", tk "23.70",
   tk "10.0", tk "4.5", tk "0", tk "0", tk "0", tk "0", tk "1", tk "1", tk "1"]

/-- The record `c4Row` denotes. -/
def c4Rec : Record :=
  ⟨some (381 / 10), some (237 / 10), some 10, some (9 / 2), ⟨2024, 3, 1, 12, 0⟩⟩

/-- A data row with only 16 tokens: the final quality column (`Gap`) is
missing, so the row's whitespace-split token count differs from the
header's 17 columns. -/
def shortRow : List Tok :=
  [tk "2024", tk "03", tk "01", tk "11", tk "30", tk "00", tk "38,50", tk "23,00",
   tk "5,0", tk "3,2", tk "0", tk "0", tk "0", tk "0", tk "1", tk "1"]

/-- The record the 16-token `shortRow` yields when the frame is realized
at full width by another row: the missing trailing cell lands in the
unused `Gap` column, so all consumed fields parse. -/
def shortRec : Record :=
  ⟨some (385 / 10), some 23, some 5, some (16 / 5), ⟨2024, 3, 1, 13, 30⟩⟩

/-! ### Round-trip lemmas for splitting and joining -/

theorem splitP_no_sep (p : Char → Bool) (l : List Char) (h : ∀ c ∈ l, p c = false) :
    splitP p l = [l] := by
  induction l with
  | nil => rfl
  | cons c cs ih =>
    have hc : p c = false := h c (List.mem_cons_self c cs)
    have ih' := ih fun x hx => h x (List.mem_cons_of_mem c hx)
    simp [splitP, hc, ih']

theorem splitP_append_sep (p : Char → Bool) (l r : List Char) (sep : Char)
    (hl : ∀ c ∈ l, p c = false) (hs : p sep = true) :
    splitP p (l ++ sep :: r) = l :: splitP p r := by
  induction l with
  | nil => simp [splitP, hs]
  | cons a t ih =>
    have ha : p a = false := hl a (List.mem_cons_self a t)
    have ih' := ih fun x hx => hl x (List.mem_cons_of_mem a hx)
    simp [splitP, ha, ih']

theorem mem_joinSep (sep : Char) :
    ∀ (pieces : List (List Char)) (c : Char), c ∈ joinSep sep pieces →
      c = sep ∨ ∃ pc ∈ pieces, c ∈ pc
  | [], c, h => by simp [joinSep] at h
  | [x], c, h => by
    refine Or.inr ⟨x, List.mem_cons_self x [], ?_⟩
    simpa [joinSep] using h
  | x :: y :: t, c, h => by
    rw [show joinSep sep (x :: y :: t) = x ++ sep :: joinSep sep (y :: t) from rfl] at h
    rcases List.mem_append.mp h with h | h
    · exact Or.inr ⟨x, List.mem_cons_self x (y :: t), h⟩
    · rcases List.mem_cons.mp h with h | h
      · exact Or.inl h
      · rcases mem_joinSep sep (y :: t) c h with h | ⟨pc, hpc, hcpc⟩
        · exact Or.inl h
        · exact Or.inr ⟨pc, List.mem_cons_of_mem x hpc, hcpc⟩

theorem splitP_joinSep (p : Char → Bool) (sep : Char) (hs : p sep = true) :
    ∀ (pieces : List (List Char)), pieces ≠ [] →
      (∀ pc ∈ pieces, ∀ c ∈ pc, p c = false) →
      splitP p (joinSep sep pieces) = pieces
  | [], hne, _ => absurd rfl hne
  | [x], _, hp => by
    rw [show joinSep sep [x] = x from rfl]
    exact splitP_no_sep p x (hp x (List.mem_cons_self x []))
  | x :: y :: t, _, hp => by
    rw [show joinSep sep (x :: y :: t) = x ++ sep :: joinSep sep (y :: t) from rfl]
    rw [splitP_append_sep p x _ sep (hp x (List.mem_cons_self x (y :: t))) hs]
    rw [splitP_joinSep p sep hs (y :: t) (by simp)
      (fun pc hpc => hp pc (List.mem_cons_of_mem x hpc))]

theorem tokOK_ne_nil {t : Tok} (h : tokOK t = true) : t.isEmpty = false := by
  simp only [tokOK, Bool.and_eq_true, Bool.not_eq_true'] at h
  exact h.1

theorem tokOK_no_space {t : Tok} (h : tokOK t = true) {c : Char} (hc : c ∈ t) :
    isPySpace c = false := by
  simp only [tokOK, Bool.and_eq_true, List.all_eq_true, Bool.not_eq_true'] at h
  exact h.2 c hc

theorem tokOK_no_newline {t : Tok} (h : tokOK t = true) {c : Char} (hc : c ∈ t) :
    (decide (c = '\n')) = false := by
  have hsp := tokOK_no_space h hc
  have hne : c ≠ '\n' := by
    intro he
    rw [he] at hsp
    simp [isPySpace] at hsp
  simpa using hne

theorem pyTokens_joinSep (toks : List Tok) (h : ∀ t ∈ toks, tokOK t = true) :
    pyTokens (joinSep ' ' toks) = toks := by
  cases toks with
  | nil => rfl
  | cons x xs =>
    have hsplit : splitP isPySpace (joinSep ' ' (x :: xs)) = x :: xs := by
      refine splitP_joinSep isPySpace ' ' rfl (x :: xs) (by simp) ?_
      intro pc hpc c hc
      exact tokOK_no_space (h pc hpc) hc
    unfold pyTokens
    rw [hsplit]
    apply List.filter_eq_self.mpr
    intro a ha
    simpa using tokOK_ne_nil (h a ha)

/-! ### Column conversion lemmas -/

theorem mapE_ok {α β : Type} (f : α → Except PyErr β) (g : α → β) :
    ∀ (l : List α), (∀ a ∈ l, f a = .ok (g a)) → mapE f l = .ok (l.map g)
  | [], _ => rfl
  | a :: t, h => by
    have ha : f a = .ok (g a) := h a (List.mem_cons_self a t)
    have ht := mapE_ok f g t fun x hx => h x (List.mem_cons_of_mem a hx)
    simp [mapE, ha, ht]

theorem mapE_map {α β γ : Type} (f : β → Except PyErr γ) (h : α → β) (l : List α) :
    mapE f (l.map h) = mapE (fun a => f (h a)) l := by
  induction l with
  | nil => rfl
  | cons a t ih => simp [mapE, ih]

theorem recordsOf_map {α : Type} (f1 f2 f3 f4 : α → Option ℚ) (f5 : α → DT) :
    ∀ l : List α,
      recordsOf (l.map f1) (l.map f2) (l.map f3) (l.map f4) (l.map f5) =
        l.map fun r => ⟨f1 r, f2 r, f3 r, f4 r, f5 r⟩
  | [] => rfl
  | a :: t => by simp [recordsOf, recordsOf_map f1 f2 f3 f4 f5 t]

theorem getD_map_some {α : Type} (d : α) :
    ∀ (r : List α) (i : ℕ), i < r.length → (r.map some).getD i none = some (r.getD i d)
  | a :: t, 0, _ => rfl
  | a :: t, i + 1, h => by
    simpa [List.getD_cons_succ] using getD_map_some d t i (by simpa using h)
  | [], i, h => by simp at h

theorem padRow_full (r : List Tok) (n : ℕ) (h : r.length = n) : padRow n r = r.map some := by
  simp [padRow, h]

theorem dropLast_append_single {α : Type} (l : List α) (x : α) : (l ++ [x]).dropLast = l := by
  simp

theorem stdHeader_length : stdHeaderToks.length = 17 := rfl

/-! ### Evaluating the parser on canonical bodies -/

/-- Splitting and tokenizing the canonical body recovers the header tokens
and the data rows, followed by the empty candidate row the trailing
newline produces; the parse then proceeds on exactly those rows. -/
theorem load_mkBody (header : List Tok) (dataT : List (List Tok))
    (hh : ∀ t ∈ header, tokOK t = true)
    (hd : ∀ r ∈ dataT, ∀ t ∈ r, tokOK t = true) :
    load_earthquake_data (mkBody (header :: dataT)) = parseBody header (dataT ++ [[]]) := by
  have hsplit : splitP (fun c => decide (c = '\n')) (mkBody (header :: dataT)).data
      = (header :: dataT).map (joinSep ' ') ++ [[]] := by
    show splitP _ (joinSep '\n' ((header :: dataT).map (joinSep ' ') ++ [[]])) = _
    refine splitP_joinSep _ '\n' (by decide) _ (by simp) ?_
    intro pc hpc c hc
    rcases List.mem_append.mp hpc with hpc | hpc
    · rcases List.mem_map.mp hpc with ⟨lineT, hlineT, rfl⟩
      rcases mem_joinSep ' ' lineT c hc with rfl | ⟨t, ht, hct⟩
      · decide
      · rcases List.mem_cons.mp hlineT with rfl | hlineT
        · exact tokOK_no_newline (hh t ht) hct
        · exact tokOK_no_newline (hd lineT hlineT t ht) hct
    · simp only [List.mem_singleton] at hpc
      subst hpc
      simp at hc
  have htoks : ((header :: dataT).map (joinSep ' ') ++ [[]]).map pyTokens
      = header :: (dataT ++ [[]]) := by
    rw [List.map_append, List.map_map]
    have h1 : (header :: dataT).map (pyTokens ∘ joinSep ' ') = header :: dataT := by
      have hcongr : ∀ lt ∈ header :: dataT, (pyTokens ∘ joinSep ' ') lt = id lt := by
        intro lt hlt
        rcases List.mem_cons.mp hlt with rfl | hlt
        · exact pyTokens_joinSep lt hh
        · exact pyTokens_joinSep lt (hd lt hlt)
      rw [List.map_congr_left hcongr, List.map_id]
    rw [h1]
    rfl
  unfold load_earthquake_data
  rw [hsplit, htoks]

theorem dataWidth_append_nil (data : List (List Tok)) :
    dataWidth (data ++ [[]]) = dataWidth data := by
  induction data with
  | nil => rfl
  | cons r rest ih =>
    show max r.length (dataWidth (rest ++ [[]])) = max r.length (dataWidth rest)
    rw [ih]

theorem dataWidth_all (rows : List (List Tok)) (n : ℕ) (hne : rows ≠ [])
    (hlen : ∀ r ∈ rows, r.length = n) : dataWidth (rows ++ [[]]) = n := by
  induction rows with
  | nil => exact absurd rfl hne
  | cons r rest ih =>
    have hr : r.length = n := hlen r (List.mem_cons_self r rest)
    cases rest with
    | nil =>
      show max r.length (max 0 0) = n
      rw [hr]
      simp
    | cons s rest2 =>
      have hrec := ih (by simp) fun x hx => hlen x (List.mem_cons_of_mem r hx)
      show max r.length (dataWidth ((s :: rest2) ++ [[]])) = n
      rw [hrec, hr, Nat.max_self]

/-- Pandas refuses the frame when the width it infers from the candidate
rows differs from the header's column count: the whole parse raises
`ValueError`. -/
theorem parseBody_width_mismatch (header : List Tok) (data : List (List Tok))
    (hne : data ≠ []) (hbad : dataWidth data ≠ header.length) :
    parseBody header data = .error .valueError := by
  unfold parseBody
  rw [if_pos ⟨hne, hbad⟩]

/-- The column pipeline on the standard header with fully-populated rows:
each conversion succeeds cellwise and the rows are reassembled in order. -/
theorem parseCols_std (rows : List (List Tok))
    (la lo de ma : List Tok → Option ℚ) (dtf : List Tok → DT)
    (hlen : ∀ r ∈ rows, r.length = 17)
    (hla : ∀ r ∈ rows, latF r = .ok (la r))
    (hlo : ∀ r ∈ rows, longF r = .ok (lo r))
    (hde : ∀ r ∈ rows, depF r = .ok (de r))
    (hma : ∀ r ∈ rows, magF r = .ok (ma r))
    (hdt : ∀ r ∈ rows, dtF r = .ok (dtf r)) :
    parseCols stdHeaderToks (rows.map (List.map some)) =
      .ok (rows.map fun r => ⟨la r, lo r, de r, ma r, addTwoHours (dtf r)⟩) := by
  have hcell : ∀ (i : ℕ), i < 17 → ∀ r ∈ rows,
      (List.map some r).getD i none = some (r.getD i []) := by
    intro i hi r hr
    exact getD_map_some [] r i (by rw [hlen r hr]; exact hi)
  have hmapLat : mapE floatCell ((rows.map (List.map some)).map fun r => r.getD 6 none)
      = .ok (rows.map la) := by
    rw [List.map_map, mapE_map]
    refine mapE_ok _ la rows ?_
    intro r hr
    show floatCell ((List.map some r).getD 6 none) = .ok (la r)
    rw [hcell 6 (by decide) r hr]
    exact hla r hr
  have hmapLong : mapE floatCell ((rows.map (List.map some)).map fun r => r.getD 7 none)
      = .ok (rows.map lo) := by
    rw [List.map_map, mapE_map]
    refine mapE_ok _ lo rows ?_
    intro r hr
    show floatCell ((List.map some r).getD 7 none) = .ok (lo r)
    rw [hcell 7 (by decide) r hr]
    exact hlo r hr
  have hmapDep : mapE floatCell ((rows.map (List.map some)).map fun r => r.getD 8 none)
      = .ok (rows.map de) := by
    rw [List.map_map, mapE_map]
    refine mapE_ok _ de rows ?_
    intro r hr
    show floatCell ((List.map some r).getD 8 none) = .ok (de r)
    rw [hcell 8 (by decide) r hr]
    exact hde r hr
  have hmapMag : mapE floatCell ((rows.map (List.map some)).map fun r => r.getD 9 none)
      = .ok (rows.map ma) := by
    rw [List.map_map, mapE_map]
    refine mapE_ok _ ma rows ?_
    intro r hr
    show floatCell ((List.map some r).getD 9 none) = .ok (ma r)
    rw [hcell 9 (by decide) r hr]
    exact hma r hr
  have hmapDt : mapE (fun r => dtCell (r.getD 0 none) (r.getD 1 none) (r.getD 2 none)
      (r.getD 3 none) (r.getD 4 none)) (rows.map (List.map some)) = .ok (rows.map dtf) := by
    rw [mapE_map]
    refine mapE_ok _ dtf rows ?_
    intro r hr
    show dtCell ((List.map some r).getD 0 none) ((List.map some r).getD 1 none)
      ((List.map some r).getD 2 none) ((List.map some r).getD 3 none)
      ((List.map some r).getD 4 none) = .ok (dtf r)
    rw [hcell 0 (by decide) r hr, hcell 1 (by decide) r hr, hcell 2 (by decide) r hr,
      hcell 3 (by decide) r hr, hcell 4 (by decide) r hr]
    exact hdt r hr
  unfold parseCols
  rw [show colIdx stdHeaderToks (tk "Lat") = Except.ok 6 from by decide]
  simp only [Except.bind]
  rw [hmapLat]
  simp only [Except.bind]
  rw [show colIdx stdHeaderToks (tk "Long") = Except.ok 7 from by decide]
  simp only [Except.bind]
  rw [hmapLong]
  simp only [Except.bind]
  rw [show colIdx stdHeaderToks (tk "Dep") = Except.ok 8 from by decide]
  simp only [Except.bind]
  rw [hmapDep]
  simp only [Except.bind]
  rw [show colIdx stdHeaderToks (tk "Mag") = Except.ok 9 from by decide]
  simp only [Except.bind]
  rw [hmapMag]
  simp only [Except.bind]
  rw [show colIdx stdHeaderToks (tk "Year") = Except.ok 0 from by decide]
  simp only [Except.bind]
  rw [show colIdx stdHeaderToks (tk "Mo") = Except.ok 1 from by decide]
  simp only [Except.bind]
  rw [show colIdx stdHeaderToks (tk "Dy") = Except.ok 2 from by decide]
  simp only [Except.bind]
  rw [show colIdx stdHeaderToks (tk "Hr") = Except.ok 3 from by decide]
  simp only [Except.bind]
  rw [show colIdx stdHeaderToks (tk "Mn") = Except.ok 4 from by decide]
  simp only [Except.bind]
  rw [hmapDt]
  simp only [Except.bind]
  rw [show (dropCols.all fun c => decide (c ∈ stdHeaderToks)) = true from by decide]
  rw [if_pos rfl]
  rw [List.map_map, recordsOf_map]
  rfl

/-- Parsing the canonical newline-terminated body over the standard header
with at least one data row: the widest data row realizes the header's
width, so the frame is accepted, the trailing empty candidate row absorbs
the unconditional last-row drop, and every data row survives, converted
cellwise. -/
theorem parse_canonical (rows : List (List Tok))
    (la lo de ma : List Tok → Option ℚ) (dtf : List Tok → DT)
    (hne : rows ≠ [])
    (hlen : ∀ r ∈ rows, r.length = 17)
    (htok : ∀ r ∈ rows, ∀ t ∈ r, tokOK t = true)
    (hla : ∀ r ∈ rows, latF r = .ok (la r))
    (hlo : ∀ r ∈ rows, longF r = .ok (lo r))
    (hde : ∀ r ∈ rows, depF r = .ok (de r))
    (hma : ∀ r ∈ rows, magF r = .ok (ma r))
    (hdt : ∀ r ∈ rows, dtF r = .ok (dtf r)) :
    load_earthquake_data (mkBody (stdHeaderToks :: rows)) =
      .ok (rows.map fun r => ⟨la r, lo r, de r, ma r, addTwoHours (dtf r)⟩) := by
  rw [load_mkBody stdHeaderToks rows (by decide) htok]
  unfold parseBody
  have hw : dataWidth (rows ++ [[]]) = 17 := dataWidth_all rows 17 hne hlen
  rw [if_neg fun hc => hc.2 (by rw [hw, stdHeader_length])]
  rw [hw]
  have hrows : ((rows ++ [[]]).map (padRow 17)).dropLast = rows.map (List.map some) := by
    rw [List.map_append]
    rw [show ([[]] : List (List Tok)).map (padRow 17) = [padRow 17 []] from rfl]
    rw [dropLast_append_single]
    apply List.map_congr_left
    intro r hr
    exact padRow_full r 17 (hlen r hr)
  rw [hrows]
  exact parseCols_std rows la lo de ma dtf hlen hla hlo hde hma hdt

/-! ### Inversion of the per-row specification -/

theorem specRecord_inv {r : List Tok} {rec : Record} (h : specRecord r = some rec) :
    latF r = .ok rec.lat ∧ longF r = .ok rec.long ∧ depF r = .ok rec.dep ∧
      magF r = .ok rec.mag ∧ ∃ d : DT, dtF r = .ok d ∧ rec.datetime = addTwoHours d := by
  unfold specRecord at h
  cases hla : latF r <;> rw [hla] at h <;>
    cases hlo : longF r <;> rw [hlo] at h <;>
      cases hde : depF r <;> rw [hde] at h <;>
        cases hma : magF r <;> rw [hma] at h <;>
          cases hdt : dtF r <;> rw [hdt] at h <;>
            simp only [Option.some.injEq, reduceCtorEq] at h
  subst h
  exact ⟨rfl, rfl, rfl, rfl, _, rfl, rfl⟩

theorem specRecord_set_sec (r : List Tok) (s : Tok) :
    specRecord (r.set 5 s) = specRecord r := by
  have hgi : ∀ i : ℕ, i ≠ 5 → (r.set 5 s).getD i [] = r.getD i [] := by
    intro i hi
    rw [List.getD_eq_getElem?_getD, List.getD_eq_getElem?_getD,
      List.getElem?_set_ne (fun he => hi he.symm)]
  unfold specRecord latF longF depF magF dtF
  rw [hgi 0 (by decide), hgi 1 (by decide), hgi 2 (by decide), hgi 3 (by decide),
    hgi 4 (by decide), hgi 6 (by decide), hgi 7 (by decide), hgi 8 (by decide),
    hgi 9 (by decide)]

/-! ### The parse claims -/

/-- C1 (corrected): for the standard header and any N ≥ 1 well-formed
data rows, the parse of the newline-terminated body yields exactly N
records, field-for-field the comma-normalized values of the input rows.
With zero data rows the frame width (0) mismatches the header and the
parse raises, and without the trailing newline the unconditional
`iloc[:-1]` drops the last data row (see the counterexample). -/
theorem C1_round_trip (rows : List (List Tok))
    (la lo de ma : List Tok → Option ℚ) (dtf : List Tok → DT)
    (hne : rows ≠ [])
    (hlen : ∀ r ∈ rows, r.length = 17)
    (htok : ∀ r ∈ rows, ∀ t ∈ r, tokOK t = true)
    (hla : ∀ r ∈ rows, latF r = .ok (la r))
    (hlo : ∀ r ∈ rows, longF r = .ok (lo r))
    (hde : ∀ r ∈ rows, depF r = .ok (de r))
    (hma : ∀ r ∈ rows, magF r = .ok (ma r))
    (hdt : ∀ r ∈ rows, dtF r = .ok (dtf r)) :
    load_earthquake_data (mkBody (stdHeaderToks :: rows)) =
      .ok (rows.map fun r => ⟨la r, lo r, de r, ma r, addTwoHours (dtf r)⟩) ∧
    (rows.map fun r => (⟨la r, lo r, de r, ma r, addTwoHours (dtf r)⟩ : Record)).length
      = rows.length :=
  ⟨parse_canonical rows la lo de ma dtf hne hlen htok hla hlo hde hma hdt,
    List.length_map rows _⟩

/-- C1 witness: one concrete well-formed row parses to its record. -/
theorem C1_round_trip_witness :
    load_earthquake_data (mkBody (stdHeaderToks :: [exRow])) =
      .ok ([exRow].map fun _ => (⟨some (381 / 10), some (237 / 10), some 10, some (9 / 2),
        addTwoHours ⟨2024, 3, 1, 10, 0⟩⟩ : Record)) ∧
    ([exRow].map fun _ => (⟨some (381 / 10), some (237 / 10), some 10, some (9 / 2),
        addTwoHours ⟨2024, 3, 1, 10, 0⟩⟩ : Record)).length = [exRow].length :=
  C1_round_trip [exRow] (fun _ => some (381 / 10)) (fun _ => some (237 / 10))
    (fun _ => some 10) (fun _ => some (9 / 2)) (fun _ => ⟨2024, 3, 1, 10, 0⟩)
    (by decide) (by decide) (by decide) (by decide) (by decide) (by decide) (by decide)
    (by decide)

/-- C1 counterexample: a body that is exactly a header line followed by
one well-formed data row (no trailing newline) parses to zero records,
not one — `iloc[:-1]` drops the well-formed last row. -/
theorem C1_round_trip_cex :
    load_earthquake_data (mkBodyNoNL [stdHeaderToks, exRow]) = .ok [] := by decide

/-- C2 (corrected): the parser performs no per-row token-count exclusion.
Pandas validates the header's column count against the widest candidate
row and raises `ValueError` on any mismatch, in either direction, so a
document whose widest row disagrees with the header makes the whole
parse raise instead of excluding the offending rows. -/
theorem C2_no_row_exclusion (header : List Tok) (data : List (List Tok))
    (hh : ∀ t ∈ header, tokOK t = true)
    (hd : ∀ r ∈ data, ∀ t ∈ r, tokOK t = true)
    (hbad : dataWidth data ≠ header.length) :
    load_earthquake_data (mkBody (header :: data)) = .error .valueError := by
  rw [load_mkBody header data hh hd]
  refine parseBody_width_mismatch header (data ++ [[]]) (by simp) ?_
  rw [dataWidth_append_nil]
  exact hbad

/-- C2 witness: a concrete document with an 18-token row raises. -/
theorem C2_no_row_exclusion_witness :
    load_earthquake_data (mkBody (stdHeaderToks :: [longRow, exRow])) = .error .valueError :=
  C2_no_row_exclusion stdHeaderToks [longRow, exRow] (by decide) (by decide) (by decide)

/-- C2 counterexample: a document with two data rows of which exactly one
is malformed (16 tokens against the 17-column header, the widest row
realizing the full width) yields two records, not the claimed N-1 = 1:
the malformed row is padded with a missing cell in the unused `Gap`
column and kept, not excluded. -/
theorem C2_no_row_exclusion_cex :
    load_earthquake_data (mkBody [stdHeaderToks, exRow, shortRow]) =
      .ok [exRec, shortRec] := by
  decide

/-- C3 (corrected): on the empty response body the parse does not return
any record sequence — the empty frame has no columns and the `'Lat'`
lookup raises. -/
theorem C3_empty_no_records : ∀ recs : List Record, load_earthquake_data "" ≠ .ok recs := by
  intro recs h
  rw [show load_earthquake_data "" = .error .keyError from by decide] at h
  exact Except.noConfusion h

/-- C3 counterexample: the empty body raises `KeyError` instead of
producing an empty record sequence. -/
theorem C3_empty_cex : load_earthquake_data "" = .error .keyError := by decide

/-- C4 (confirmed): every parsed record's timestamp is the datetime built
from the row's year, month, day, hour and minute fields plus the fixed
two-hour shift; the seconds field (column 5) is discarded — overwriting
it never changes the parse — and the concrete row 2024-03-01 10:00
yields the timestamp 2024-03-01T12:00. -/
theorem C4_timezone_offset :
    (∀ (r : List Tok) (rec : Record), specRecord r = some rec →
      ∃ d : DT, dtF r = .ok d ∧ rec.datetime = addTwoHours d) ∧
    (∀ (r : List Tok) (s : Tok), specRecord (r.set 5 s) = specRecord r) ∧
    addTwoHours ⟨2024, 3, 1, 10, 0⟩ = ⟨2024, 3, 1, 12, 0⟩ ∧
    load_earthquake_data (mkBody [stdHeaderToks, c4Row]) = .ok [c4Rec] := by
  refine ⟨?_, specRecord_set_sec, by decide, by decide⟩
  intro r rec h
  exact (specRecord_inv h).2.2.2.2

/-- C4 witness: the timestamp decomposition at the concrete row. -/
theorem C4_timezone_offset_witness :
    ∃ d : DT, dtF c4Row = .ok d ∧ c4Rec.datetime = addTwoHours d :=
  C4_timezone_offset.1 c4Row c4Rec (by decide)

/-- C5 (confirmed): every float cell replaces each comma by a dot before
the numeric conversion; the magnitude token `"4,5"` denotes `4.5`, and a
row carrying commas in all four float fields parses to the dot-normalized
values. -/
theorem C5_decimal_normalization :
    (∀ s : Tok, floatCell (some s) =
      match parseFloat (replaceComma s) with
      | some q => .ok (some q)
      | none => .error .valueError) ∧
    parseFloat (replaceComma (tk "4,5")) = some (9 / 2) ∧
    load_earthquake_data (mkBody [stdHeaderToks, exRow]) = .ok [exRec] :=
  ⟨fun _ => rfl, by decide, by decide⟩

/-! ### The color mapper -/

theorem pyMax_eq_max (a b : ℚ) : pyMax a b = max a b := by
  unfold pyMax
  by_cases h : a ≤ b
  · rw [if_pos h, max_eq_right h]
  · rw [if_neg h, max_eq_left (le_of_not_le h)]

theorem pyMin_eq_min (a b : ℚ) : pyMin a b = min a b := by
  unfold pyMin
  by_cases h : b ≤ a
  · rw [if_pos h, min_eq_right h]
  · rw [if_neg h, min_eq_left (le_of_not_le h)]

theorem pyInt_eq_floor {q : ℚ} (h : 0 ≤ q) : pyInt q = ⌊q⌋ := by
  unfold pyInt
  rw [Rat.floor_def]
  exact Int.tdiv_eq_ediv (Rat.num_nonneg.mpr h) (Int.natCast_nonneg _)

theorem colorPos_eq (d mn mx : ℚ) :
    colorPos d mn mx = max 0 (min 1 (if mx = mn then 1 else (d - mn) / (mx - mn))) := by
  unfold colorPos
  rw [pyMax_eq_max, pyMin_eq_min]

theorem colorPos_nonneg (d mn mx : ℚ) : 0 ≤ colorPos d mn mx := by
  rw [colorPos_eq]
  exact le_max_left 0 _

theorem colorPos_le_one (d mn mx : ℚ) : colorPos d mn mx ≤ 1 := by
  rw [colorPos_eq]
  exact max_le zero_le_one (min_le_left 1 _)

theorem colorPos_mono {mn mx d1 d2 : ℚ} (h : mn < mx) (h12 : d1 ≤ d2) :
    colorPos d1 mn mx ≤ colorPos d2 mn mx := by
  rw [colorPos_eq, colorPos_eq, if_neg (ne_of_gt h), if_neg (ne_of_gt h)]
  refine max_le_max le_rfl (min_le_min le_rfl ?_)
  exact (div_le_div_iff_of_pos_right (sub_pos.mpr h)).mpr (sub_le_sub_right h12 mn)

theorem colorPos_left {mn mx d : ℚ} (h : mn < mx) (ht : d ≤ mn) : colorPos d mn mx = 0 := by
  rw [colorPos_eq, if_neg (ne_of_gt h)]
  have hx : (d - mn) / (mx - mn) ≤ 0 :=
    div_nonpos_iff.mpr (Or.inr ⟨sub_nonpos.mpr ht, (sub_pos.mpr h).le⟩)
  exact max_eq_left (le_trans (min_le_right 1 _) hx)

theorem colorPos_right {mn mx d : ℚ} (h : mn < mx) (ht : mx ≤ d) : colorPos d mn mx = 1 := by
  rw [colorPos_eq, if_neg (ne_of_gt h)]
  have hx : 1 ≤ (d - mn) / (mx - mn) := (one_le_div (sub_pos.mpr h)).mpr (sub_le_sub_right ht mn)
  rw [min_eq_left hx]
  exact max_eq_right zero_le_one

theorem colorPos_bot {mn mx : ℚ} (h : mn < mx) : colorPos mn mn mx = 0 :=
  colorPos_left h le_rfl

theorem colorPos_top {mn mx : ℚ} (h : mn < mx) : colorPos mx mn mx = 1 :=
  colorPos_right h le_rfl

theorem colorPos_deg (t : ℚ) : colorPos t t t = 1 := by
  rw [colorPos_eq, if_pos rfl, min_self]
  exact max_eq_right zero_le_one

theorem redChannel_eq_floor (d mn mx : ℚ) :
    redChannel d mn mx = ⌊255 * colorPos d mn mx⌋ :=
  pyInt_eq_floor (mul_nonneg (by norm_num) (colorPos_nonneg d mn mx))

theorem blueChannel_eq_floor (d mn mx : ℚ) :
    blueChannel d mn mx = ⌊255 * (1 - colorPos d mn mx)⌋ :=
  pyInt_eq_floor (mul_nonneg (by norm_num) (sub_nonneg.mpr (colorPos_le_one d mn mx)))

theorem redChannel_mono {mn mx d1 d2 : ℚ} (h : mn < mx) (h12 : d1 ≤ d2) :
    redChannel d1 mn mx ≤ redChannel d2 mn mx := by
  rw [redChannel_eq_floor, redChannel_eq_floor]
  exact Int.floor_le_floor (mul_le_mul_of_nonneg_left (colorPos_mono h h12) (by norm_num))

theorem blueChannel_anti {mn mx d1 d2 : ℚ} (h : mn < mx) (h12 : d1 ≤ d2) :
    blueChannel d2 mn mx ≤ blueChannel d1 mn mx := by
  rw [blueChannel_eq_floor, blueChannel_eq_floor]
  refine Int.floor_le_floor (mul_le_mul_of_nonneg_left ?_ (by norm_num))
  exact sub_le_sub_left (colorPos_mono h h12) 1

theorem floor_ofNat_255 : (⌊(255 : ℚ)⌋ : ℤ) = 255 := by
  rw [show (255 : ℚ) = ((255 : ℤ) : ℚ) from by norm_num, Int.floor_intCast]

theorem redChannel_bot {mn mx : ℚ} (h : mn < mx) : redChannel mn mn mx = 0 := by
  rw [redChannel_eq_floor, colorPos_bot h, mul_zero, Int.floor_zero]

theorem redChannel_top {mn mx : ℚ} (h : mn < mx) : redChannel mx mn mx = 255 := by
  rw [redChannel_eq_floor, colorPos_top h, mul_one, floor_ofNat_255]

theorem blueChannel_bot {mn mx : ℚ} (h : mn < mx) : blueChannel mn mn mx = 255 := by
  rw [blueChannel_eq_floor, colorPos_bot h, sub_zero, mul_one, floor_ofNat_255]

theorem blueChannel_top {mn mx : ℚ} (h : mn < mx) : blueChannel mx mn mx = 0 := by
  rw [blueChannel_eq_floor, colorPos_top h, sub_self, mul_zero, Int.floor_zero]

theorem get_color_congr {t1 t2 mn mx : ℚ} (h : colorPos t1 mn mx = colorPos t2 mn mx) :
    get_color t1 mn mx = get_color t2 mn mx := by
  unfold get_color redChannel blueChannel
  rw [h]

/-! ### The color claims -/

/-- C6 (corrected): over a window `tmin < tmax`, the red channel is
monotonically non-decreasing and the blue channel monotonically
non-increasing in the timestamp (strictness fails: truncation to integer
channel values collapses nearby timestamps — see the counterexample);
the window endpoints are still strictly ordered in both channels, and the
degenerate window returns the newest color `#ff0000` (position 1). -/
theorem C6_gradient_monotone (tmin t1 t2 tmax : ℚ)
    (hw : tmin < tmax) (h12 : t1 ≤ t2) :
    redChannel t1 tmin tmax ≤ redChannel t2 tmin tmax ∧
    blueChannel t2 tmin tmax ≤ blueChannel t1 tmin tmax ∧
    redChannel tmin tmin tmax < redChannel tmax tmin tmax ∧
    blueChannel tmax tmin tmax < blueChannel tmin tmin tmax ∧
    get_color tmin tmin tmin = "#ff0000" := by
  refine ⟨redChannel_mono hw h12, blueChannel_anti hw h12, ?_, ?_, ?_⟩
  · rw [redChannel_bot hw, redChannel_top hw]
    norm_num
  · rw [blueChannel_top hw, blueChannel_bot hw]
    norm_num
  · have hr : redChannel tmin tmin tmin = 255 := by
      rw [redChannel_eq_floor, colorPos_deg, mul_one, floor_ofNat_255]
    have hb : blueChannel tmin tmin tmin = 0 := by
      rw [blueChannel_eq_floor, colorPos_deg, sub_self, mul_zero, Int.floor_zero]
    unfold get_color
    rw [hr, hb]
    decide

/-- C6 witness: the amended monotonicity at a concrete window. -/
theorem C6_gradient_monotone_witness :
    redChannel 1 0 3 ≤ redChannel 2 0 3 ∧
    blueChannel 2 0 3 ≤ blueChannel 1 0 3 ∧
    redChannel 0 0 3 < redChannel 3 0 3 ∧
    blueChannel 3 0 3 < blueChannel 0 0 3 ∧
    get_color 0 0 0 = "#ff0000" :=
  C6_gradient_monotone 0 1 2 3 (by norm_num) (by norm_num)

/-- C6 counterexample: in the window `[0, 510]` the strictly ordered
timestamps 0 and 1 receive the same red channel value (both truncate to
0), so the claimed strict channel ordering is false. -/
theorem C6_gradient_cex :
    (0 : ℚ) < 1 ∧ (1 : ℚ) < 510 ∧ redChannel 1 0 510 = redChannel 0 0 510 :=
  ⟨by norm_num, by norm_num, by decide⟩

/-- C7 (confirmed): the interpolated position is clamped, so any
timestamp below the window takes the color of the window minimum and any
timestamp above it the color of the window maximum, and the green
channel of the output (characters 3-4 of the hex string) is always 0. -/
theorem C7_clamping (t mn mx : ℚ) (h : mn < mx) :
    (t < mn → get_color t mn mx = get_color mn mn mx) ∧
    (mx < t → get_color t mn mx = get_color mx mn mx) ∧
    ((get_color t mn mx).data.drop 3).take 2 = ['0', '0'] := by
  refine ⟨?_, ?_, rfl⟩
  · intro ht
    exact get_color_congr (by rw [colorPos_left h ht.le, colorPos_bot h])
  · intro ht
    exact get_color_congr (by rw [colorPos_right h ht.le, colorPos_top h])

/-- C7 witness: clamping at a concrete window. -/
theorem C7_clamping_witness :
    ((-1 : ℚ) < 0 → get_color (-1) 0 1 = get_color 0 0 1) ∧
    ((1 : ℚ) < -1 → get_color (-1) 0 1 = get_color 1 0 1) ∧
    ((get_color (-1) 0 1).data.drop 3).take 2 = ['0', '0'] :=
  C7_clamping (-1) 0 1 (by norm_num)

/-- C8 (confirmed): the embedded `get_color` is a pure function of its
three arguments — equal inputs yield equal colors; in the shallow
embedding it is a plain function of exactly these arguments, reading no
global or prior state and performing no effect. -/
theorem C8_deterministic (t1 t2 mn1 mn2 mx1 mx2 : ℚ)
    (ht : t1 = t2) (hmn : mn1 = mn2) (hmx : mx1 = mx2) :
    get_color t1 mn1 mx1 = get_color t2 mn2 mx2 := by
  rw [ht, hmn, hmx]

/-- C8 witness: determinism at a concrete input. -/
theorem C8_deterministic_witness : get_color 1 2 3 = get_color 1 2 3 :=
  C8_deterministic 1 1 2 2 3 3 rfl rfl rfl

/-- C10 (confirmed): every output of `get_color` is the 7-character
string of a hash sign, two hex digits of the red value, the literal
`"00"` green field, and two hex digits of the blue value, with both
channel values in `[0, 255]` and their sum 254 or 255 (the truncated
split of the 255-unit intensity budget). -/
theorem C10_color_format (t mn mx : ℚ) :
    ∃ r b : ℕ, r ≤ 255 ∧ b ≤ 255 ∧ (r + b = 254 ∨ r + b = 255) ∧
      redChannel t mn mx = (r : ℤ) ∧ blueChannel t mn mx = (b : ℤ) ∧
      get_color t mn mx = "#" ++ hex2 r ++ "00" ++ hex2 b ∧
      (get_color t mn mx).length = 7 := by
  have hx0 : (0 : ℚ) ≤ 255 * colorPos t mn mx :=
    mul_nonneg (by norm_num) (colorPos_nonneg t mn mx)
  have hx255 : 255 * colorPos t mn mx ≤ 255 := by
    calc 255 * colorPos t mn mx ≤ 255 * 1 :=
      mul_le_mul_of_nonneg_left (colorPos_le_one t mn mx) (by norm_num)
    _ = 255 := mul_one 255
  have hred : redChannel t mn mx = ⌊255 * colorPos t mn mx⌋ := redChannel_eq_floor t mn mx
  have hblue : blueChannel t mn mx = ⌊255 - 255 * colorPos t mn mx⌋ := by
    rw [blueChannel_eq_floor]
    congr 1
    ring
  have hr0 : 0 ≤ ⌊255 * colorPos t mn mx⌋ := Int.floor_nonneg.mpr hx0
  have hr255 : ⌊255 * colorPos t mn mx⌋ ≤ 255 := by
    calc ⌊255 * colorPos t mn mx⌋ ≤ ⌊(255 : ℚ)⌋ := Int.floor_le_floor hx255
    _ = 255 := floor_ofNat_255
  have hb0 : 0 ≤ ⌊255 - 255 * colorPos t mn mx⌋ := Int.floor_nonneg.mpr (by linarith)
  have hb255 : ⌊255 - 255 * colorPos t mn mx⌋ ≤ 255 := by
    calc ⌊255 - 255 * colorPos t mn mx⌋ ≤ ⌊(255 : ℚ)⌋ := Int.floor_le_floor (by linarith)
    _ = 255 := floor_ofNat_255
  have hshift : ⌊255 - 255 * colorPos t mn mx⌋ = -⌈255 * colorPos t mn mx⌉ + 255 := by
    rw [show (255 : ℚ) - 255 * colorPos t mn mx
      = -(255 * colorPos t mn mx) + ((255 : ℤ) : ℚ) from by push_cast; ring]
    rw [Int.floor_add_int, Int.floor_neg]
  have hceil1 : ⌈255 * colorPos t mn mx⌉ ≤ ⌊255 * colorPos t mn mx⌋ + 1 :=
    Int.ceil_le_floor_add_one _
  have hceil0 : ⌊255 * colorPos t mn mx⌋ ≤ ⌈255 * colorPos t mn mx⌉ :=
    Int.floor_le_ceil _
  refine ⟨(redChannel t mn mx).toNat, (blueChannel t mn mx).toNat, ?_, ?_, ?_, ?_, ?_, rfl, rfl⟩
  · rw [hred]
    omega
  · rw [hblue]
    omega
  · rw [hred, hblue]
    omega
  · rw [hred]
    omega
  · rw [hblue]
    omega

/-- C9 (confirmed): applying the date/magnitude mask filter twice with
the same bounds returns the same rows as applying it once. -/
theorem C9_filter_idempotent (df : List Record) (startD endD : ℕ × ℕ × ℕ) (mlo mhi : ℚ) :
    filtered_df (filtered_df df startD endD mlo mhi) startD endD mlo mhi =
      filtered_df df startD endD mlo mhi := by
  unfold filtered_df
  rw [List.filter_filter]
  have hmask : (fun a => rowMask startD endD mlo mhi a && rowMask startD endD mlo mhi a)
      = rowMask startD endD mlo mhi := by
    funext a
    exact Bool.and_self _
  rw [hmask]

end Earthquakes
